import Mathlib

/-!
Verification development for the `epdtrainer/netutils/convbasics.py` building
blocks: a shallow embedding of the quantization-aware composite-block logic
(BaseConv, DWConv, Bottleneck, SPP/SPPF, CSPLayer, Focus) together with
theorems settling the specification's testable properties.

Modelling conventions:
* A 4-D tensor is a shape `(b, c, h, w)` plus a total data function; entries
  are `Int` stand-ins for the numeric runtime's scalars.
* Numeric kernels of the Primitive Op Provider (convolution arithmetic,
  batch-norm statistics, activation curves) are opaque per the spec; each is
  carried as an uninterpreted function field, while the provider's *shape*
  behaviour (the standard convolution/pooling output-size rule) is modelled
  explicitly.
* Fallible operations (tensor concatenation/addition on mismatched shapes,
  constructor validation, unknown activation names) return `Option`/`Except`.
-/

namespace DDTrainer

/-- A 4-D tensor `(batch, channel, height, width)` with a total data
function; out-of-range indices are irrelevant junk.  Stands in for the
opaque Tensor handle of the Primitive Op Provider. -/
@[ext]
structure Tensor where
  b : Nat
  c : Nat
  h : Nat
  w : Nat
  data : Nat → Nat → Nat → Nat → Int
deriving Inhabited

/-- Elementwise addition; the provider raises on shape mismatch (broadcasting
never arises in these blocks, where the shortcut add pairs equal shapes). -/
def Tensor.add (x y : Tensor) : Option Tensor :=
  if x.b = y.b ∧ x.c = y.c ∧ x.h = y.h ∧ x.w = y.w then
    some { x with data := fun i j r s => x.data i j r s + y.data i j r s }
  else
    none

/-- Channel index routing for channel-axis concatenation. -/
def catData : List Tensor → Nat → Nat → Nat → Nat → Int
  | [], _, _, _, _ => 0
  | t :: rest, i, j, r, s =>
      if j < t.c then t.data i j r s else catData rest i (j - t.c) r s

/-- Concatenation along the channel axis (`dim=1`); all operands must agree
on batch and spatial dimensions, otherwise the provider raises. -/
def Tensor.catC : List Tensor → Option Tensor
  | [] => none
  | t :: rest =>
      if rest.all (fun s => s.b == t.b && s.h == t.h && s.w == t.w) then
        some { b := t.b, c := ((t :: rest).map Tensor.c).sum, h := t.h, w := t.w,
               data := catData (t :: rest) }
      else
        none

/-- Elementwise map (used for the unary activation transforms). -/
def Tensor.emap (g : Int → Int) (x : Tensor) : Tensor :=
  { x with data := fun i j r s => g (x.data i j r s) }

/-- `nn.quantized.FloatFunctional`.  Modelled from the spec: the
quantization-simulation primitive supplied by the Primitive Op Provider;
in the unquantized (floating-point) case it computes the plain op and the
attached observer is the identity, so its results coincide numerically with
the plain add/concat. -/
structure FloatFunctional

/-- Quantization-aware elementwise add (`FloatFunctional.add`). -/
def FloatFunctional.add (_ : FloatFunctional) (x y : Tensor) : Option Tensor :=
  Tensor.add x y

/-- Quantization-aware concatenation (`FloatFunctional.cat`, `dim=1`). -/
def FloatFunctional.cat (_ : FloatFunctional) (ts : List Tensor) : Option Tensor :=
  Tensor.catC ts

/-- The provider's output-size rule for convolution/pooling windows
(dilation 1): `(n + 2*pad - k) / stride + 1`. -/
def convOutDim (n k pad stride : Nat) : Nat :=
  (n + 2 * pad - k) / stride + 1

/-- `nn.Conv2d`: configuration plus an uninterpreted numeric kernel
(the learned weights and the convolution arithmetic are opaque provider
state; only the output shape is modelled). -/
structure Conv2d where
  inC : Nat
  outC : Nat
  k : Nat
  stride : Nat
  pad : Nat
  groups : Nat
  hasBias : Bool
  kernelData : Tensor → Nat → Nat → Nat → Nat → Int
deriving Inhabited

/-- Modelled from the spec: the provider's constructor validation for
grouped convolution (positive group count, channel counts divisible by
the group count); construction fails fast on violation. -/
def Conv2d.init (inC outC k stride pad groups : Nat) (hasBias : Bool)
    (kd : Tensor → Nat → Nat → Nat → Nat → Int) : Except String Conv2d :=
  if groups = 0 then
    .error "groups must be a positive integer"
  else if inC % groups ≠ 0 then
    .error "in_channels must be divisible by groups"
  else if outC % groups ≠ 0 then
    .error "out_channels must be divisible by groups"
  else
    .ok ⟨inC, outC, k, stride, pad, groups, hasBias, kd⟩

/-- Applying a convolution: output channels and spatial shape follow the
provider's contract; the values come from the opaque kernel. -/
def Conv2d.apply (cv : Conv2d) (x : Tensor) : Tensor :=
  { b := x.b
    c := cv.outC
    h := convOutDim x.h cv.k cv.pad cv.stride
    w := convOutDim x.w cv.k cv.pad cv.stride
    data := cv.kernelData x }

/-- `nn.BatchNorm2d`: a per-channel elementwise transform at application
time; the normalization statistics are opaque provider state. -/
structure BatchNorm2d where
  features : Nat
  f : Nat → Int → Int
deriving Inhabited

/-- Batch normalization preserves the tensor's shape and acts per channel. -/
def BatchNorm2d.apply (bn : BatchNorm2d) (x : Tensor) : Tensor :=
  { x with data := fun i j r s => bn.f j (x.data i j r s) }

/-- The symbolic activation modules the Activation Selector can return
(`lrelu` carries negative slope 0.1, opaque here). -/
inductive ActModule where
  | silu (inplace : Bool)
  | relu (inplace : Bool)
  | lrelu (inplace : Bool)
deriving DecidableEq, Inhabited

/-- `get_activation`: maps a symbolic name to an activation module and
raises on any other name. -/
def get_activation (name : String) (inplace : Bool) : Except String ActModule :=
  if name = "silu" then .ok (.silu inplace)
  else if name = "relu" then .ok (.relu inplace)
  else if name = "lrelu" then .ok (.lrelu inplace)
  else .error ("Unsupported act type: " ++ name)

/-- `BaseConv`: a Conv2d → BatchNorm → activation block.  The stored `act`
is the unary elementwise transform produced by the selector (numerically
opaque, obtained through an interpretation `sem` of the symbolic module). -/
structure BaseConv where
  conv : Conv2d
  bn : BatchNorm2d
  act : Int → Int
deriving Inhabited

/-- `BaseConv.__init__`: computes same padding `(ksize - 1) / 2` (integer
division), builds the convolution, the batch norm, and resolves the
activation name through `get_activation`. -/
def BaseConv.init (inC outC ksize stride groups : Nat) (bias : Bool) (act : String)
    (kd : Tensor → Nat → Nat → Nat → Nat → Int) (bnf : Nat → Int → Int)
    (sem : ActModule → Int → Int) : Except String BaseConv := do
  let pad := (ksize - 1) / 2
  let cv ← Conv2d.init inC outC ksize stride pad groups bias kd
  let m ← get_activation act true
  .ok { conv := cv, bn := { features := outC, f := bnf }, act := sem m }

/-- `BaseConv.forward`: `act(bn(conv(x)))`. -/
def BaseConv.forward (u : BaseConv) (x : Tensor) : Tensor :=
  Tensor.emap u.act (u.bn.apply (u.conv.apply x))

/-- `BaseConv.fuseforward`: `act(conv(x))`, the post-fusion path that skips
normalization. -/
def BaseConv.fuseforward (u : BaseConv) (x : Tensor) : Tensor :=
  Tensor.emap u.act (u.conv.apply x)

/-- `DWConv`: depthwise BaseConv followed by pointwise BaseConv. -/
structure DWConv where
  dconv : BaseConv
  pconv : BaseConv
deriving Inhabited

/-- `DWConv.__init__`: the depthwise stage uses `groups = in_channels`
(and `in_channels` outputs), the pointwise stage uses `ksize=1, groups=1`. -/
def DWConv.init (inC outC ksize stride : Nat) (act : String)
    (kd1 : Tensor → Nat → Nat → Nat → Nat → Int) (bnf1 : Nat → Int → Int)
    (kd2 : Tensor → Nat → Nat → Nat → Nat → Int) (bnf2 : Nat → Int → Int)
    (sem : ActModule → Int → Int) : Except String DWConv := do
  let d ← BaseConv.init inC inC ksize stride inC false act kd1 bnf1 sem
  let p ← BaseConv.init inC outC 1 1 1 false act kd2 bnf2 sem
  .ok ⟨d, p⟩

/-- `DWConv.forward`: pointwise after depthwise. -/
def DWConv.forward (u : DWConv) (x : Tensor) : Tensor :=
  u.pconv.forward (u.dconv.forward x)

/-- The conv2 stage of a Bottleneck: a plain BaseConv or a DWConv, chosen
by the `depthwise` flag. -/
inductive ConvUnit where
  | base (u : BaseConv)
  | dw (u : DWConv)
deriving Inhabited

/-- Applying either conv2 variant. -/
def ConvUnit.forward : ConvUnit → Tensor → Tensor
  | .base u, x => u.forward x
  | .dw u, x => u.forward x

/-- Opaque learned-parameter payload handed to one BaseConv at
construction (the numeric kernel and the normalization transform). -/
structure ConvParams where
  kd : Tensor → Nat → Nat → Nat → Nat → Int
  bnf : Nat → Int → Int
deriving Inhabited

/-- `Bottleneck`: conv1 (1x1) → conv2 (3x3 or depthwise) with an optional
residual add, quantization-aware when `qat` is set. -/
structure Bottleneck where
  conv1 : BaseConv
  conv2 : ConvUnit
  use_add : Bool
  qat : Bool
  qat_func : FloatFunctional

/-- `Bottleneck.__init__`: `hidden = int(out_channels * expansion)`
(`int` truncation, i.e. floor on the non-negative values used here),
`use_add = shortcut and in_channels == out_channels`. -/
def Bottleneck.init (inC outC : Nat) (shortcut : Bool) (expansion : ℚ)
    (depthwise : Bool) (act : String) (qat : Bool) (p1 p2 p3 : ConvParams)
    (sem : ActModule → Int → Int) : Except String Bottleneck := do
  let hidden : Nat := (⌊(outC : ℚ) * expansion⌋).toNat
  let c1 ← BaseConv.init inC hidden 1 1 1 false act p1.kd p1.bnf sem
  let mk2 : Except String ConvUnit :=
    if depthwise then
      (DWConv.init hidden outC 3 1 act p2.kd p2.bnf p3.kd p3.bnf sem).map ConvUnit.dw
    else
      (BaseConv.init hidden outC 3 1 1 false act p2.kd p2.bnf sem).map ConvUnit.base
  let c2 ← mk2
  .ok { conv1 := c1, conv2 := c2, use_add := shortcut && inC == outC,
        qat := qat, qat_func := ⟨⟩ }

/-- `Bottleneck.forward`: `y = conv2(conv1(x))`, then if `use_add`, the
residual add through `qat_func` when `qat` else the plain add. -/
def Bottleneck.forward (bt : Bottleneck) (x : Tensor) : Option Tensor :=
  let y := bt.conv2.forward (bt.conv1.forward x)
  if bt.use_add then
    if bt.qat then bt.qat_func.add y x else Tensor.add y x
  else
    some y

/-- `nn.MaxPool2d` configuration. -/
structure MaxPool2d where
  k : Nat
  stride : Nat
  pad : Nat
deriving Inhabited

/-- Max pooling: the provider's output-size rule, taking the maximum over
the in-bounds part of each window (padding is neutral for max). -/
def MaxPool2d.apply (p : MaxPool2d) (x : Tensor) : Tensor :=
  { b := x.b
    c := x.c
    h := convOutDim x.h p.k p.pad p.stride
    w := convOutDim x.w p.k p.pad p.stride
    data := fun i j r s =>
      let vals := (List.range p.k).flatMap (fun dr =>
        (List.range p.k).filterMap (fun dc =>
          let rr := r * p.stride + dr
          let cc := s * p.stride + dc
          if p.pad ≤ rr ∧ p.pad ≤ cc ∧ rr < x.h + p.pad ∧ cc < x.w + p.pad then
            some (x.data i j (rr - p.pad) (cc - p.pad))
          else
            none))
      (vals.max?).getD 0 }

/-- `SPPBottleneck`: conv1 (1x1), parallel max pools at the configured
kernel sizes, concat, conv2 (1x1). -/
structure SPPBottleneck where
  qat : Bool
  qat_func : FloatFunctional
  conv1 : BaseConv
  m : List MaxPool2d
  conv2 : BaseConv

/-- `SPPBottleneck.__init__`: `hidden = in_channels // 2`, one pool per
kernel size (`stride=1, padding=ks // 2`), and
`conv2_channels = hidden * (len(kernel_sizes) + 1)`. -/
def SPPBottleneck.init (inC outC : Nat) (kernel_sizes : List Nat)
    (activation : String) (qat : Bool) (p1 p2 : ConvParams)
    (sem : ActModule → Int → Int) : Except String SPPBottleneck := do
  let hidden := inC / 2
  let c1 ← BaseConv.init inC hidden 1 1 1 false activation p1.kd p1.bnf sem
  let pools := kernel_sizes.map (fun ks => MaxPool2d.mk ks 1 (ks / 2))
  let conv2_channels := hidden * (kernel_sizes.length + 1)
  let c2 ← BaseConv.init conv2_channels outC 1 1 1 false activation p2.kd p2.bnf sem
  .ok { qat := qat, qat_func := ⟨⟩, conv1 := c1, m := pools, conv2 := c2 }

/-- The concatenation step of `SPPBottleneck.forward`: conv1's output
followed by every pool's output, through `qat_func` when `qat` is set. -/
def SPPBottleneck.catStep (sp : SPPBottleneck) (x1 : Tensor) : Option Tensor :=
  if sp.qat then
    sp.qat_func.cat (x1 :: sp.m.map (fun mp => mp.apply x1))
  else
    Tensor.catC (x1 :: sp.m.map (fun mp => mp.apply x1))

/-- `SPPBottleneck.forward`. -/
def SPPBottleneck.forward (sp : SPPBottleneck) (x : Tensor) : Option Tensor :=
  (sp.catStep (sp.conv1.forward x)).map sp.conv2.forward

/-- `SPPFBottleneck`: conv1 (1x1), three sequential max pools, concat of
the base and the three pool outputs, conv2 (1x1). -/
structure SPPFBottleneck where
  qat : Bool
  qat_func : FloatFunctional
  conv1 : BaseConv
  spp0 : MaxPool2d
  spp1 : MaxPool2d
  spp2 : MaxPool2d
  conv2 : BaseConv

/-- `SPPFBottleneck.__init__`: indexes `kernel_sizes[0..2]` (an index
error when fewer than three are given), and — exactly as the source —
sizes conv2 as `hidden * (len(kernel_sizes) + 1)`. -/
def SPPFBottleneck.init (inC outC : Nat) (kernel_sizes : List Nat)
    (activation : String) (qat : Bool) (p1 p2 : ConvParams)
    (sem : ActModule → Int → Int) : Except String SPPFBottleneck := do
  let hidden := inC / 2
  let c1 ← BaseConv.init inC hidden 1 1 1 false activation p1.kd p1.bnf sem
  let g0 : Except String Nat := match kernel_sizes[0]? with
    | some k => Except.ok k
    | none => Except.error "tuple index out of range"
  let g1 : Except String Nat := match kernel_sizes[1]? with
    | some k => Except.ok k
    | none => Except.error "tuple index out of range"
  let g2 : Except String Nat := match kernel_sizes[2]? with
    | some k => Except.ok k
    | none => Except.error "tuple index out of range"
  let k0 ← g0
  let k1 ← g1
  let k2 ← g2
  let conv2_channels := hidden * (kernel_sizes.length + 1)
  let c2 ← BaseConv.init conv2_channels outC 1 1 1 false activation p2.kd p2.bnf sem
  .ok { qat := qat, qat_func := ⟨⟩, conv1 := c1,
        spp0 := ⟨k0, 1, k0 / 2⟩, spp1 := ⟨k1, 1, k1 / 2⟩, spp2 := ⟨k2, 1, k2 / 2⟩,
        conv2 := c2 }

/-- The concatenation step of `SPPFBottleneck.forward`: always exactly the
base plus the three chained pool outputs. -/
def SPPFBottleneck.catStep (sp : SPPFBottleneck) (x1 : Tensor) : Option Tensor :=
  let s0 := sp.spp0.apply x1
  let s1 := sp.spp1.apply s0
  let s2 := sp.spp2.apply s1
  if sp.qat then
    sp.qat_func.cat [x1, s0, s1, s2]
  else
    Tensor.catC [x1, s0, s1, s2]

/-- `SPPFBottleneck.forward`. -/
def SPPFBottleneck.forward (sp : SPPFBottleneck) (x : Tensor) : Option Tensor :=
  (sp.catStep (sp.conv1.forward x)).map sp.conv2.forward

/-- `CSPLayer`: two parallel 1x1 convs, a stack of Bottlenecks on path A,
concat of the two paths, and a closing 1x1 conv. -/
structure CSPLayer where
  qat : Bool
  conv1 : BaseConv
  conv2 : BaseConv
  conv3 : BaseConv
  m : List Bottleneck
  qat_func : FloatFunctional

/-- The `n` identical-config Bottlenecks of a CSPLayer (each with its own
learned-parameter payloads, indexed by position); expansion `1.0`. -/
def CSPLayer.mkBottlenecks (hidden : Nat) (shortcut : Bool) (depthwise : Bool)
    (act : String) (qat : Bool) (pm : Nat → ConvParams × ConvParams × ConvParams)
    (sem : ActModule → Int → Int) : Nat → Except String (List Bottleneck)
  | 0 => .ok []
  | n + 1 => do
      let bt ← Bottleneck.init hidden hidden shortcut 1 depthwise act qat
        (pm n).1 (pm n).2.1 (pm n).2.2 sem
      let rest ← CSPLayer.mkBottlenecks hidden shortcut depthwise act qat pm sem n
      .ok (bt :: rest)

/-- `CSPLayer.__init__`: `hidden = int(out_channels * expansion)`;
conv1/conv2 map `in → hidden`, conv3 maps `2*hidden → out`; the `qat`
flag is passed down to every inner Bottleneck. -/
def CSPLayer.init (inC outC n : Nat) (shortcut : Bool) (expansion : ℚ)
    (depthwise : Bool) (act : String) (qat : Bool) (p1 p2 p3 : ConvParams)
    (pm : Nat → ConvParams × ConvParams × ConvParams)
    (sem : ActModule → Int → Int) : Except String CSPLayer := do
  let hidden : Nat := (⌊(outC : ℚ) * expansion⌋).toNat
  let c1 ← BaseConv.init inC hidden 1 1 1 false act p1.kd p1.bnf sem
  let c2 ← BaseConv.init inC hidden 1 1 1 false act p2.kd p2.bnf sem
  let c3 ← BaseConv.init (2 * hidden) outC 1 1 1 false act p3.kd p3.bnf sem
  let ms ← CSPLayer.mkBottlenecks hidden shortcut depthwise act qat pm sem n
  .ok { qat := qat, conv1 := c1, conv2 := c2, conv3 := c3, m := ms, qat_func := ⟨⟩ }

/-- Sequential application of the Bottleneck stack (`nn.Sequential`). -/
def CSPLayer.mForward (ms : List Bottleneck) (x : Tensor) : Option Tensor :=
  ms.foldlM (fun t bt => bt.forward t) x

/-- `CSPLayer.forward`: the top-level path-A/path-B concat goes through
`qat_func.cat` unconditionally — the layer's own `qat` flag is never
consulted here. -/
def CSPLayer.forward (cl : CSPLayer) (x : Tensor) : Option Tensor := do
  let x1 ← CSPLayer.mForward cl.m (cl.conv1.forward x)
  let xc ← cl.qat_func.cat [x1, cl.conv2.forward x]
  pure (cl.conv3.forward xc)

/-- Stride-2 spatial sub-sampling starting at row parity `r0` and column
parity `c0` (Python `x[..., r0::2, c0::2]`); the sliced extent along an
axis of length `n` is `(n - a + 1) / 2`. -/
def Tensor.sliceStep2 (x : Tensor) (r0 c0 : Nat) : Tensor :=
  { b := x.b
    c := x.c
    h := (x.h - r0 + 1) / 2
    w := (x.w - c0 + 1) / 2
    data := fun i j r s => x.data i j (2 * r + r0) (2 * s + c0) }

/-- The four parity patches of `Focus.forward`, in the source's fixed
concat order: top-left, bottom-left, top-right, bottom-right. -/
def Focus.patches (x : Tensor) : List Tensor :=
  [x.sliceStep2 0 0, x.sliceStep2 1 0, x.sliceStep2 0 1, x.sliceStep2 1 1]

/-- `Focus`: deinterleave into four parity patches, concat on the channel
axis, then a BaseConv over `4 * in_channels` inputs. -/
structure Focus where
  conv : BaseConv
  qat : Bool
  qat_func : FloatFunctional

/-- `Focus.__init__`. -/
def Focus.init (inC outC ksize stride : Nat) (act : String) (qat : Bool)
    (p : ConvParams) (sem : ActModule → Int → Int) : Except String Focus := do
  let cv ← BaseConv.init (inC * 4) outC ksize stride 1 false act p.kd p.bnf sem
  .ok { conv := cv, qat := qat, qat_func := ⟨⟩ }

/-- The deinterleave-and-concat step of `Focus.forward`. -/
def Focus.catStep (f : Focus) (x : Tensor) : Option Tensor :=
  if f.qat then
    f.qat_func.cat (Focus.patches x)
  else
    Tensor.catC (Focus.patches x)

/-- `Focus.forward`. -/
def Focus.forward (f : Focus) (x : Tensor) : Option Tensor :=
  (f.catStep x).map f.conv.forward

/-- Spec-side reconstruction for the Focus round trip: re-interleave the
four parity patches (given in the documented top-left, bottom-left,
top-right, bottom-right order) back into one tensor. -/
def reinterleave (tl bl tr br : Tensor) : Tensor :=
  { b := tl.b
    c := tl.c
    h := tl.h + bl.h
    w := tl.w + tr.w
    data := fun i j r s =>
      if r % 2 = 0 then
        if s % 2 = 0 then tl.data i j (r / 2) (s / 2)
        else tr.data i j (r / 2) (s / 2)
      else
        if s % 2 = 0 then bl.data i j (r / 2) (s / 2)
        else br.data i j (r / 2) (s / 2) }

/-! ### Concrete fixtures used by witnesses -/

/-- A concrete (zero) stand-in for an opaque convolution kernel. -/
def zeroKD : Tensor → Nat → Nat → Nat → Nat → Int := fun _ _ _ _ _ => 0

/-- A concrete (identity) stand-in for an opaque normalization transform. -/
def idBNF : Nat → Int → Int := fun _ v => v

/-- A concrete (identity) stand-in for the activation interpretation. -/
def idSem : ActModule → Int → Int := fun _ v => v

/-- A concrete learned-parameter payload. -/
def zeroParams : ConvParams := ⟨zeroKD, idBNF⟩

/-- A concrete `(1,1,4,4)` tensor. -/
def t44 : Tensor := ⟨1, 1, 4, 4, fun _ _ _ _ => 0⟩

/-- A concrete `(1,2,4,4)` tensor. -/
def t244 : Tensor := ⟨1, 2, 4, 4, fun i j r s => (i + j + r + s : Int)⟩

/-- A concrete tensor with an odd height. -/
def t34 : Tensor := ⟨1, 1, 3, 4, fun _ _ _ _ => 0⟩

/-- A concrete 3×3-kernel BaseConv used by witnesses. -/
def sampleBc3 : BaseConv :=
  match BaseConv.init 1 1 3 1 1 false "silu" zeroKD idBNF idSem with
  | .ok u => u
  | .error _ => default

/-- A concrete Bottleneck (in=out=2, shortcut, expansion 1/2), written
out as `Bottleneck.init` builds it. -/
def sampleBt : Bottleneck :=
  { conv1 := { conv := ⟨2, 1, 1, 1, 0, 1, false, zeroKD⟩, bn := ⟨1, idBNF⟩,
               act := idSem (.silu true) },
    conv2 := .base { conv := ⟨1, 2, 3, 1, 1, 1, false, zeroKD⟩, bn := ⟨2, idBNF⟩,
                     act := idSem (.silu true) },
    use_add := true, qat := false, qat_func := ⟨⟩ }

/-- A concrete DWConv (in=2, out=3). -/
def sampleDw : DWConv :=
  match DWConv.init 2 3 3 1 "silu" zeroKD idBNF zeroKD idBNF idSem with
  | .ok d => d
  | .error _ => default

/-! ### Helper lemmas -/

/-- Inversion for a successful `Except` bind. -/
theorem exceptBind_ok {α β : Type} {x : Except String α} {f : α → Except String β}
    {b : β} (h : x >>= f = .ok b) : ∃ a, x = .ok a ∧ f a = .ok b := by
  cases x with
  | error e => simp [Bind.bind, Except.bind] at h
  | ok a => exact ⟨a, rfl, by simpa [Bind.bind, Except.bind] using h⟩

/-- Inversion for a successful `BaseConv.init`: recovers the activation
module and the exact configuration of the built unit. -/
theorem baseconv_init_ok {inC outC ksize stride groups : Nat} {bias : Bool}
    {act : String} {kd : Tensor → Nat → Nat → Nat → Nat → Int}
    {bnf : Nat → Int → Int} {sem : ActModule → Int → Int} {u : BaseConv}
    (h : BaseConv.init inC outC ksize stride groups bias act kd bnf sem = .ok u) :
    ∃ m, get_activation act true = .ok m ∧
      u = { conv := ⟨inC, outC, ksize, stride, (ksize - 1) / 2, groups, bias, kd⟩,
            bn := ⟨outC, bnf⟩, act := sem m } := by
  unfold BaseConv.init at h
  obtain ⟨cv, hc, h⟩ := exceptBind_ok h
  obtain ⟨m, hm, h⟩ := exceptBind_ok h
  unfold Conv2d.init at hc
  split at hc
  · exact absurd hc (by simp)
  · split at hc
    · exact absurd hc (by simp)
    · split at hc
      · exact absurd hc (by simp)
      · cases hc
        cases h
        exact ⟨m, hm, rfl⟩

/-- Collapsing the per-call quantization branch of a residual add: in the
unquantized numeric model both paths are the plain add. -/
theorem qat_add_collapse (q : Bool) (ff : FloatFunctional) (y z : Tensor) :
    (if q then ff.add y z else Tensor.add y z) = Tensor.add y z := by
  cases q <;> rfl

/-- Inversion for a successful `Bottleneck.init`: the stored flags. -/
theorem bottleneck_init_ok {inC outC : Nat} {shortcut : Bool} {expansion : ℚ}
    {depthwise : Bool} {act : String} {qat : Bool} {p1 p2 p3 : ConvParams}
    {sem : ActModule → Int → Int} {bt : Bottleneck}
    (h : Bottleneck.init inC outC shortcut expansion depthwise act qat p1 p2 p3 sem
          = .ok bt) :
    bt.use_add = (shortcut && inC == outC) ∧ bt.qat = qat := by
  unfold Bottleneck.init at h
  obtain ⟨c1, h1, h⟩ := exceptBind_ok h
  obtain ⟨c2, h2, h⟩ := exceptBind_ok h
  cases h
  exact ⟨rfl, rfl⟩

/-! ### Theorems -/

/-- C1: Quantization-Aware Combiner.  For the Bottleneck residual add and
the SPP/SPPF/Focus concatenations: with the block's `qat` flag false the
combine is the plain elementwise add / channel concatenate; with it true
it goes through the `qat_func` quantization-simulation primitive; and on
the same (unquantized) inputs the two execution paths give identical
results. -/
theorem qat_combiner_equiv (bt : Bottleneck) (sp : SPPBottleneck)
    (sf : SPPFBottleneck) (f : Focus) (x : Tensor) :
    (Bottleneck.forward { bt with qat := true } x
        = Bottleneck.forward { bt with qat := false } x ∧
      Bottleneck.forward { bt with qat := false } x
        = (if bt.use_add then Tensor.add (bt.conv2.forward (bt.conv1.forward x)) x
           else some (bt.conv2.forward (bt.conv1.forward x)))) ∧
    (SPPBottleneck.forward { sp with qat := true } x
        = SPPBottleneck.forward { sp with qat := false } x ∧
      SPPBottleneck.catStep { sp with qat := false } x
        = Tensor.catC (x :: sp.m.map (fun mp => mp.apply x))) ∧
    (SPPFBottleneck.forward { sf with qat := true } x
        = SPPFBottleneck.forward { sf with qat := false } x) ∧
    (Focus.forward { f with qat := true } x
        = Focus.forward { f with qat := false } x ∧
      Focus.catStep { f with qat := false } x = Tensor.catC (Focus.patches x)) :=
  ⟨⟨rfl, rfl⟩, ⟨rfl, rfl⟩, rfl, rfl, rfl⟩

/-- C7: the Activation Selector returns an activation module for each of
the names silu/relu/lrelu and fails with the unsupported-activation error
for every other name. -/
theorem get_activation_spec (name : String) (inplace : Bool) :
    ((name = "silu" ∨ name = "relu" ∨ name = "lrelu") →
        ∃ m, get_activation name inplace = Except.ok m) ∧
    (¬(name = "silu" ∨ name = "relu" ∨ name = "lrelu") →
        get_activation name inplace
          = Except.error ("Unsupported act type: " ++ name)) := by
  constructor
  · rintro (h | h | h) <;> subst h <;> exact ⟨_, rfl⟩
  · intro h
    push_neg at h
    obtain ⟨h1, h2, h3⟩ := h
    simp [get_activation, h1, h2, h3]

/-- Witness for C7: "silu" succeeds, "gelu" fails with the documented
error message. -/
theorem get_activation_spec_witness :
    (get_activation "silu" true).toOption.isSome = true ∧
    get_activation "gelu" true = Except.error ("Unsupported act type: " ++ "gelu") := by
  constructor
  · obtain ⟨m, hm⟩ := (get_activation_spec "silu" true).1 (Or.inl rfl)
    rw [hm]
    rfl
  · exact (get_activation_spec "gelu" true).2 (by simp)

/-- C8: the Basic Conv Unit's two entry points: `forward` is
`act(bn(conv(x)))`, `fuseforward` is `act(conv(x))`; they differ exactly
by omitting normalization (`fuseforward` coincides with `forward` run with
an identity normalization), and both coexist on the same constructed
unit. -/
theorem baseconv_dual_path (u : BaseConv) (x : Tensor) :
    u.forward x = Tensor.emap u.act (u.bn.apply (u.conv.apply x)) ∧
    u.fuseforward x = Tensor.emap u.act (u.conv.apply x) ∧
    u.fuseforward x
      = BaseConv.forward
          { u with bn := { features := u.bn.features, f := fun _ v => v } } x :=
  ⟨rfl, rfl, rfl⟩

/-- C5 (amended): with stride 1 and an *odd* kernel size, the Basic Conv
Unit preserves spatial height and width on any input with nonempty
spatial extent; the padding is `(kernel_size - 1) / 2` (integer
division).  (For even kernel sizes the same padding formula shrinks each
spatial dimension by one, see the counterexample.) -/
theorem baseconv_same_padding (inC outC groups ksize : Nat) (bias : Bool)
    (act : String) (kd : Tensor → Nat → Nat → Nat → Nat → Int)
    (bnf : Nat → Int → Int) (sem : ActModule → Int → Int) (u : BaseConv)
    (x : Tensor)
    (h : BaseConv.init inC outC ksize 1 groups bias act kd bnf sem = .ok u)
    (hk : ksize % 2 = 1) (hh : 0 < x.h) (hw : 0 < x.w) :
    (u.forward x).h = x.h ∧ (u.forward x).w = x.w := by
  obtain ⟨m, -, rfl⟩ := baseconv_init_ok h
  simp only [BaseConv.forward, Tensor.emap, BatchNorm2d.apply, Conv2d.apply,
    convOutDim, Nat.div_one]
  constructor <;> omega

/-- Witness for C5: a 3×3 stride-1 unit maps a 4×4 input to 4×4. -/
theorem baseconv_same_padding_witness :
    (sampleBc3.forward t44).h = t44.h ∧ (sampleBc3.forward t44).w = t44.w :=
  baseconv_same_padding 1 1 1 3 false "silu" zeroKD idBNF idSem sampleBc3 t44
    rfl rfl (by decide) (by decide)

/-- Counterexample for C5 as stated: `ksize = 2, stride = 1` is a valid
Unit Configuration (the spec only requires positive integers), yet the
`(kernel_size - 1) / 2` padding maps a 4×4 input to 3×3, so spatial
dimensions are not preserved. -/
theorem baseconv_even_kernel_cex :
    (BaseConv.init 1 1 2 1 1 false "silu" zeroKD idBNF idSem).map
        (fun u => ((u.forward t44).h, (u.forward t44).w)) = .ok (3, 3) ∧
    (t44.h, t44.w) = (4, 4) :=
  ⟨rfl, rfl⟩

/-- C2: a constructed Bottleneck adds the input `x` to `conv2(conv1(x))`
exactly when the shortcut flag is set and `in_channels = out_channels`;
in every other configuration the result is `conv2(conv1(x))` with no
added term (in both quantization modes). -/
theorem bottleneck_add_iff (inC outC : Nat) (shortcut : Bool) (expansion : ℚ)
    (depthwise : Bool) (act : String) (qat : Bool) (p1 p2 p3 : ConvParams)
    (sem : ActModule → Int → Int) (bt : Bottleneck) (x : Tensor)
    (h : Bottleneck.init inC outC shortcut expansion depthwise act qat p1 p2 p3 sem
          = .ok bt) :
    bt.forward x =
      if shortcut = true ∧ inC = outC then
        Tensor.add (bt.conv2.forward (bt.conv1.forward x)) x
      else
        some (bt.conv2.forward (bt.conv1.forward x)) := by
  obtain ⟨hu, -⟩ := bottleneck_init_ok h
  simp only [Bottleneck.forward, hu, qat_add_collapse]
  by_cases hs : shortcut = true ∧ inC = outC
  · obtain ⟨h1, h2⟩ := hs
    subst h1
    simp [h2]
  · have hb : (shortcut && inC == outC) = false := by
      cases shortcut with
      | false => simp
      | true =>
        have h2 : inC ≠ outC := fun hc => hs ⟨rfl, hc⟩
        simp [h2]
    simp [hb, hs]

/-- Witness for C2: a shortcut Bottleneck with `in = out = 2` adds its
input. -/
theorem bottleneck_add_iff_witness :
    sampleBt.forward t244
      = Tensor.add (sampleBt.conv2.forward (sampleBt.conv1.forward t244)) t244 := by
  have hfl : ((⌊((2 : Nat) : ℚ) * ((1 : ℚ) / 2)⌋).toNat) = 1 := by norm_num
  have hinit : Bottleneck.init 2 2 true ((1 : ℚ) / 2) false "silu" false
      zeroParams zeroParams zeroParams idSem = .ok sampleBt := by
    simp [Bottleneck.init, BaseConv.init, Conv2d.init, get_activation, hfl,
      zeroParams, sampleBt, Bind.bind, Except.bind, Except.map]
  have h := bottleneck_add_iff 2 2 true ((1 : ℚ) / 2) false "silu" false
    zeroParams zeroParams zeroParams idSem sampleBt t244 hinit
  simpa using h

/-- C6: the Depthwise-Separable Unit fixes its depthwise group count to
`in_channels`, so the grouping-divisibility guard always passes
(`in_channels % in_channels = 0`): for any positive channel count and any
supported activation the constructor succeeds, the first stage is the
depthwise unit (`groups = in_channels`, `in → in`), the second the
pointwise unit (`kernel 1, groups 1`), and `forward` is the pointwise
unit applied to the depthwise unit's output. -/
theorem dwconv_spec (inC outC ksize stride : Nat) (act : String) (m : ActModule)
    (kd1 : Tensor → Nat → Nat → Nat → Nat → Int) (bnf1 : Nat → Int → Int)
    (kd2 : Tensor → Nat → Nat → Nat → Nat → Int) (bnf2 : Nat → Int → Int)
    (sem : ActModule → Int → Int) (hin : 0 < inC)
    (hact : get_activation act true = .ok m) :
    ∃ d : DWConv,
      DWConv.init inC outC ksize stride act kd1 bnf1 kd2 bnf2 sem = .ok d ∧
      d.dconv.conv.groups = inC ∧ d.dconv.conv.inC = inC ∧
      d.dconv.conv.outC = inC ∧ inC % d.dconv.conv.groups = 0 ∧
      d.pconv.conv.k = 1 ∧ d.pconv.conv.groups = 1 ∧
      d.pconv.conv.inC = inC ∧ d.pconv.conv.outC = outC ∧
      ∀ x, d.forward x = d.pconv.forward (d.dconv.forward x) := by
  have h0 : inC ≠ 0 := Nat.pos_iff_ne_zero.mp hin
  refine ⟨{ dconv := { conv := ⟨inC, inC, ksize, stride, (ksize - 1) / 2, inC, false, kd1⟩,
                       bn := ⟨inC, bnf1⟩, act := sem m },
            pconv := { conv := ⟨inC, outC, 1, 1, 0, 1, false, kd2⟩,
                       bn := ⟨outC, bnf2⟩, act := sem m } },
          ?_, rfl, rfl, rfl, Nat.mod_self inC, rfl, rfl, rfl, rfl, fun x => rfl⟩
  unfold DWConv.init BaseConv.init Conv2d.init
  simp [h0, Nat.mod_self, Nat.mod_one, hact, Bind.bind, Except.bind]

/-- Witness for C6: a concrete `in=2, out=3` depthwise-separable unit is
constructed successfully and composes its two stages. -/
theorem dwconv_spec_witness :
    DWConv.init 2 3 3 1 "silu" zeroKD idBNF zeroKD idBNF idSem = .ok sampleDw ∧
    sampleDw.forward t244
      = sampleDw.pconv.forward (sampleDw.dconv.forward t244) := by
  obtain ⟨d, hd, -, -, -, -, -, -, -, -, hf⟩ :=
    dwconv_spec 2 3 3 1 "silu" (.silu true) zeroKD idBNF zeroKD idBNF idSem
      (by decide) rfl
  have hds : d = sampleDw := by
    have h2 : Except.ok d = Except.ok sampleDw :=
      hd.symm.trans (rfl :
        DWConv.init 2 3 3 1 "silu" zeroKD idBNF zeroKD idBNF idSem = .ok sampleDw)
    exact Except.ok.inj h2
  exact ⟨hds ▸ hd, hds ▸ hf t244⟩

/-- A concrete Focus block. -/
def sampleFocus : Focus :=
  match Focus.init 1 1 1 1 "silu" false zeroParams idSem with
  | .ok f => f
  | .error _ => { conv := default, qat := false, qat_func := ⟨⟩ }

/-- The concat step of `Focus.forward` always reduces to the plain
channel concat of the four parity patches in the numeric model. -/
theorem focus_catStep_eq (f : Focus) (x : Tensor) :
    f.catStep x = Tensor.catC (Focus.patches x) := by
  unfold Focus.catStep
  cases f.qat <;> rfl

/-- C4: on an input with even height and width, Focus deinterleaves into
the four parity patches (top-left, bottom-left, top-right, bottom-right),
whose channel concat — the tensor fed to the final conv — exists and has
shape `(B, 4C, H/2, W/2)`; and re-interleaving the four patches in that
documented order reconstructs the input exactly. -/
theorem focus_deinterleave_roundtrip (f : Focus) (x : Tensor)
    (hh : x.h % 2 = 0) (hw : x.w % 2 = 0) :
    (∃ y, f.catStep x = some y ∧ y.b = x.b ∧ y.c = 4 * x.c ∧
        y.h = x.h / 2 ∧ y.w = x.w / 2) ∧
    reinterleave (x.sliceStep2 0 0) (x.sliceStep2 1 0) (x.sliceStep2 0 1)
        (x.sliceStep2 1 1) = x := by
  constructor
  · have hcond : ([x.sliceStep2 1 0, x.sliceStep2 0 1, x.sliceStep2 1 1].all
        (fun s => s.b == (x.sliceStep2 0 0).b && s.h == (x.sliceStep2 0 0).h
          && s.w == (x.sliceStep2 0 0).w)) = true := by
      simp [Tensor.sliceStep2]
      omega
    rw [focus_catStep_eq]
    simp only [Focus.patches, Tensor.catC, hcond, reduceIte]
    refine ⟨_, rfl, rfl, ?_, ?_, ?_⟩ <;>
      simp [Tensor.sliceStep2] <;> omega
  · apply Tensor.ext
    · rfl
    · rfl
    · simp only [reinterleave, Tensor.sliceStep2]
      omega
    · simp only [reinterleave, Tensor.sliceStep2]
      omega
    · funext i j r s
      simp only [reinterleave, Tensor.sliceStep2]
      rcases Nat.mod_two_eq_zero_or_one r with hr | hr <;>
        rcases Nat.mod_two_eq_zero_or_one s with hsp | hsp <;>
        simp only [hr, hsp, if_true, if_false, Nat.one_ne_zero, reduceIte] <;>
        congr 1 <;> omega

/-- Witness for C4: the four parity patches of a concrete 4×4 tensor
re-interleave to the original, and their concat carries `4*C` channels. -/
theorem focus_deinterleave_roundtrip_witness :
    reinterleave (t44.sliceStep2 0 0) (t44.sliceStep2 1 0) (t44.sliceStep2 0 1)
        (t44.sliceStep2 1 1) = t44 ∧
    (sampleFocus.catStep t44).map Tensor.c = some (4 * t44.c) := by
  have h := focus_deinterleave_roundtrip sampleFocus t44 (by decide) (by decide)
  refine ⟨h.2, ?_⟩
  obtain ⟨y, hy, -, hc, -, -⟩ := h.1
  rw [hy]
  simp [hc]

/-- C10: on an input with odd height or odd width the four parity patches
have unequal spatial shapes, the channel concat inside `Focus.forward`
fails, and the whole forward evaluation fails; evenness of H and W is
exactly the precondition making that error branch unreachable. -/
theorem focus_odd_input_fails (f : Focus) (x : Tensor)
    (hodd : x.h % 2 = 1 ∨ x.w % 2 = 1) :
    Focus.forward f x = none := by
  have hcond : ([x.sliceStep2 1 0, x.sliceStep2 0 1, x.sliceStep2 1 1].all
      (fun s => s.b == (x.sliceStep2 0 0).b && s.h == (x.sliceStep2 0 0).h
        && s.w == (x.sliceStep2 0 0).w)) = false := by
    rw [Bool.eq_false_iff]
    intro hall
    rw [List.all_eq_true] at hall
    rcases hodd with h | h
    · have hm := hall (x.sliceStep2 1 0) (by simp)
      simp only [Bool.and_eq_true, beq_iff_eq, Tensor.sliceStep2] at hm
      omega
    · have hm := hall (x.sliceStep2 0 1) (by simp)
      simp only [Bool.and_eq_true, beq_iff_eq, Tensor.sliceStep2] at hm
      omega
  unfold Focus.forward
  rw [focus_catStep_eq]
  simp only [Focus.patches, Tensor.catC, hcond]
  rfl

/-- Witness for C10: a 3×4 input makes `Focus.forward` fail. -/
theorem focus_odd_input_fails_witness : Focus.forward sampleFocus t34 = none :=
  focus_odd_input_fails sampleFocus t34 (Or.inl rfl)

/-! ### SPP / SPPF helpers -/

/-- Stride-1 convolution with a 1×1 kernel and no padding preserves a
nonempty spatial extent. -/
theorem convOutDim_one (n : Nat) (hn : 0 < n) : convOutDim n 1 0 1 = n := by
  unfold convOutDim
  omega

/-- Stride-1 windows of odd size `k` with padding `k / 2` preserve a
nonempty spatial extent. -/
theorem convOutDim_odd (n k : Nat) (hk : k % 2 = 1) (hn : 0 < n) :
    convOutDim n k (k / 2) 1 = n := by
  unfold convOutDim
  omega

/-- Channel concat of a head and shape-uniform tail succeeds and sums the
channel counts. -/
theorem catC_of_uniform (t : Tensor) (rest : List Tensor)
    (h : ∀ s ∈ rest, s.b = t.b ∧ s.h = t.h ∧ s.w = t.w) :
    Tensor.catC (t :: rest) = some
      { b := t.b, c := ((t :: rest).map Tensor.c).sum, h := t.h, w := t.w,
        data := catData (t :: rest) } := by
  have hc : (rest.all fun s => s.b == t.b && s.h == t.h && s.w == t.w) = true := by
    rw [List.all_eq_true]
    intro s hs
    obtain ⟨h1, h2, h3⟩ := h s hs
    simp [h1, h2, h3]
  simp only [Tensor.catC, hc, reduceIte]

/-- Sum of a constant list. -/
theorem list_sum_const {l : List Nat} {v : Nat} (h : ∀ a ∈ l, a = v) :
    l.sum = l.length * v := by
  induction l with
  | nil => simp
  | cons a t ih =>
    simp only [List.sum_cons, List.length_cons]
    rw [h a (by simp), ih (fun b hb => h b (by simp [hb]))]
    ring

/-- The SPP concat step reduces to the plain channel concat. -/
theorem spp_catStep_eq (sp : SPPBottleneck) (x1 : Tensor) :
    sp.catStep x1 = Tensor.catC (x1 :: sp.m.map (fun mp => mp.apply x1)) := by
  unfold SPPBottleneck.catStep
  cases sp.qat <;> rfl

/-- The SPPF concat step reduces to the plain channel concat of the base
and the three chained pool outputs. -/
theorem sppf_catStep_eq (sp : SPPFBottleneck) (x1 : Tensor) :
    sp.catStep x1 = Tensor.catC [x1, sp.spp0.apply x1,
      sp.spp1.apply (sp.spp0.apply x1),
      sp.spp2.apply (sp.spp1.apply (sp.spp0.apply x1))] := by
  unfold SPPFBottleneck.catStep
  cases sp.qat <;> rfl

/-- Inversion of the tuple-indexing step of `SPPFBottleneck.init`. -/
theorem idx_ok {l : List Nat} {i : Nat} {k : Nat}
    (h : (match l[i]? with
          | some k => Except.ok k
          | none => Except.error "tuple index out of range")
        = (Except.ok k : Except String Nat)) :
    l[i]? = some k := by
  cases hl : l[i]? with
  | none =>
    rw [hl] at h
    exact absurd h (by simp)
  | some a =>
    rw [hl] at h
    injection h with h2
    exact congrArg some h2

/-- Inversion for a successful `SPPBottleneck.init`. -/
theorem SPPbottleneck_init_ok {inC outC : Nat} {ks : List Nat} {act : String}
    {qat : Bool} {p1 p2 : ConvParams} {sem : ActModule → Int → Int}
    {sp : SPPBottleneck}
    (h : SPPBottleneck.init inC outC ks act qat p1 p2 sem = .ok sp) :
    ∃ m, get_activation act true = .ok m ∧
      sp = { qat := qat, qat_func := ⟨⟩,
             conv1 := { conv := ⟨inC, inC / 2, 1, 1, 0, 1, false, p1.kd⟩,
                        bn := ⟨inC / 2, p1.bnf⟩, act := sem m },
             m := ks.map (fun k => ⟨k, 1, k / 2⟩),
             conv2 := { conv := ⟨(inC / 2) * (ks.length + 1), outC, 1, 1, 0, 1,
                                 false, p2.kd⟩,
                        bn := ⟨outC, p2.bnf⟩, act := sem m } } := by
  unfold SPPBottleneck.init at h
  obtain ⟨c1, h1, h⟩ := exceptBind_ok h
  obtain ⟨c2, h2, h⟩ := exceptBind_ok h
  obtain ⟨m1, hm1, e1⟩ := baseconv_init_ok h1
  obtain ⟨m2, hm2, e2⟩ := baseconv_init_ok h2
  have hmm12 : m1 = m2 := Except.ok.inj (hm1.symm.trans hm2)
  subst hmm12
  subst e1
  subst e2
  cases h
  exact ⟨m1, hm1, rfl⟩

/-- Inversion for a successful `SPPFBottleneck.init`. -/
theorem SPPFbottleneck_init_ok {inC outC : Nat} {ks : List Nat} {act : String}
    {qat : Bool} {p1 p2 : ConvParams} {sem : ActModule → Int → Int}
    {sp : SPPFBottleneck}
    (h : SPPFBottleneck.init inC outC ks act qat p1 p2 sem = .ok sp) :
    ∃ m k0 k1 k2, get_activation act true = .ok m ∧
      ks[0]? = some k0 ∧ ks[1]? = some k1 ∧ ks[2]? = some k2 ∧
      sp = { qat := qat, qat_func := ⟨⟩,
             conv1 := { conv := ⟨inC, inC / 2, 1, 1, 0, 1, false, p1.kd⟩,
                        bn := ⟨inC / 2, p1.bnf⟩, act := sem m },
             spp0 := ⟨k0, 1, k0 / 2⟩, spp1 := ⟨k1, 1, k1 / 2⟩,
             spp2 := ⟨k2, 1, k2 / 2⟩,
             conv2 := { conv := ⟨(inC / 2) * (ks.length + 1), outC, 1, 1, 0, 1,
                                 false, p2.kd⟩,
                        bn := ⟨outC, p2.bnf⟩, act := sem m } } := by
  unfold SPPFBottleneck.init at h
  obtain ⟨c1, h1, h⟩ := exceptBind_ok h
  obtain ⟨k0, hk0, h⟩ := exceptBind_ok h
  obtain ⟨k1, hk1, h⟩ := exceptBind_ok h
  obtain ⟨k2, hk2, h⟩ := exceptBind_ok h
  obtain ⟨c2, h2, h⟩ := exceptBind_ok h
  obtain ⟨m1, hm1, e1⟩ := baseconv_init_ok h1
  obtain ⟨m2, hm2, e2⟩ := baseconv_init_ok h2
  have hmm12 : m1 = m2 := Except.ok.inj (hm1.symm.trans hm2)
  subst hmm12
  subst e1
  subst e2
  cases h
  exact ⟨m1, k0, k1, k2, hm1, idx_ok hk0, idx_ok hk1, idx_ok hk2, rfl⟩

/-- A 1×1 stride-1 zero-padding BaseConv preserves batch and nonempty
spatial extent and outputs its configured channel count. -/
theorem forward_shape_1x1 (u : BaseConv) (x : Tensor)
    (hk : u.conv.k = 1) (hp : u.conv.pad = 0) (hs : u.conv.stride = 1)
    (hh : 0 < x.h) (hw : 0 < x.w) :
    (u.forward x).b = x.b ∧ (u.forward x).c = u.conv.outC ∧
    (u.forward x).h = x.h ∧ (u.forward x).w = x.w := by
  refine ⟨rfl, rfl, ?_, ?_⟩
  · show convOutDim x.h u.conv.k u.conv.pad u.conv.stride = x.h
    rw [hk, hp, hs]
    exact convOutDim_one _ hh
  · show convOutDim x.w u.conv.k u.conv.pad u.conv.stride = x.w
    rw [hk, hp, hs]
    exact convOutDim_one _ hw

/-- An odd-size stride-1 max pool with `k / 2` padding preserves the
whole shape on nonempty spatial extent. -/
theorem maxPool_preserve (k : Nat) (x1 : Tensor) (hk : k % 2 = 1)
    (hh : 0 < x1.h) (hw : 0 < x1.w) :
    ((⟨k, 1, k / 2⟩ : MaxPool2d).apply x1).b = x1.b ∧
    ((⟨k, 1, k / 2⟩ : MaxPool2d).apply x1).c = x1.c ∧
    ((⟨k, 1, k / 2⟩ : MaxPool2d).apply x1).h = x1.h ∧
    ((⟨k, 1, k / 2⟩ : MaxPool2d).apply x1).w = x1.w :=
  ⟨rfl, rfl, convOutDim_odd _ _ hk hh, convOutDim_odd _ _ hk hw⟩

/-- A concrete SPP bottleneck (in=2, K=3 pools of sizes 5/9/13). -/
def sampleSpp : SPPBottleneck :=
  match SPPBottleneck.init 2 2 [5, 9, 13] "silu" false zeroParams zeroParams idSem with
  | .ok s => s
  | .error _ =>
      { qat := false, qat_func := ⟨⟩, conv1 := default, m := [], conv2 := default }

/-- A concrete SPPF bottleneck (in=2, pools 5/5/5). -/
def sampleSppf : SPPFBottleneck :=
  match SPPFBottleneck.init 2 2 [5, 5, 5] "silu" false zeroParams zeroParams idSem with
  | .ok s => s
  | .error _ =>
      { qat := false, qat_func := ⟨⟩, conv1 := default, spp0 := default,
        spp1 := default, spp2 := default, conv2 := default }

/-- C3: with `hidden = in_channels / 2`, the SPP bottleneck's
concatenation (the tensor fed to conv2) carries `hidden * (K + 1)`
channels — exactly conv2's configured input width — for K pool sizes,
while the SPPF bottleneck's concatenation always carries `hidden * 4`
channels regardless of how many kernel sizes were configured, because its
forward concatenates exactly the base and three sequential pool
outputs. -/
theorem spp_sppf_concat_width :
    (∀ (inC outC : Nat) (ks : List Nat) (act : String) (qat : Bool)
        (p1 p2 : ConvParams) (sem : ActModule → Int → Int) (sp : SPPBottleneck)
        (x : Tensor),
        SPPBottleneck.init inC outC ks act qat p1 p2 sem = .ok sp →
        (∀ k ∈ ks, k % 2 = 1) → 0 < x.h → 0 < x.w →
        ∃ y, sp.catStep (sp.conv1.forward x) = some y ∧
          y.c = (inC / 2) * (ks.length + 1) ∧
          sp.conv2.conv.inC = (inC / 2) * (ks.length + 1) ∧
          y.h = x.h ∧ y.w = x.w) ∧
    (∀ (inC outC : Nat) (ks : List Nat) (act : String) (qat : Bool)
        (p1 p2 : ConvParams) (sem : ActModule → Int → Int) (sp : SPPFBottleneck)
        (x : Tensor),
        SPPFBottleneck.init inC outC ks act qat p1 p2 sem = .ok sp →
        (∀ k ∈ ks, k % 2 = 1) → 0 < x.h → 0 < x.w →
        ∃ y, sp.catStep (sp.conv1.forward x) = some y ∧
          y.c = (inC / 2) * 4 ∧ y.h = x.h ∧ y.w = x.w) := by
  constructor
  · intro inC outC ks act qat p1 p2 sem sp x hinit hks hh hw
    obtain ⟨m, -, rfl⟩ := SPPbottleneck_init_ok hinit
    set u : BaseConv :=
      { conv := ⟨inC, inC / 2, 1, 1, 0, 1, false, p1.kd⟩,
        bn := ⟨inC / 2, p1.bnf⟩, act := sem m } with hu
    obtain ⟨hb1, hc1, hh1, hw1⟩ := forward_shape_1x1 u x rfl rfl rfl hh hw
    have hh1p : 0 < (u.forward x).h := by omega
    have hw1p : 0 < (u.forward x).w := by omega
    have huni : ∀ s ∈ (ks.map (fun k => (⟨k, 1, k / 2⟩ : MaxPool2d))).map
        (fun mp => mp.apply (u.forward x)),
        s.b = (u.forward x).b ∧ s.h = (u.forward x).h ∧ s.w = (u.forward x).w := by
      intro s hs
      rw [List.mem_map] at hs
      obtain ⟨mp, hmp, rfl⟩ := hs
      rw [List.mem_map] at hmp
      obtain ⟨k, hk, rfl⟩ := hmp
      obtain ⟨pb, -, ph, pw⟩ := maxPool_preserve k (u.forward x) (hks k hk) hh1p hw1p
      exact ⟨pb, ph, pw⟩
    rw [spp_catStep_eq, catC_of_uniform _ _ huni]
    refine ⟨_, rfl, ?_, rfl, hh1, hw1⟩
    show ((u.forward x :: _).map Tensor.c).sum = _
    rw [List.map_cons, List.sum_cons, hc1]
    have hsum : (((ks.map (fun k => (⟨k, 1, k / 2⟩ : MaxPool2d))).map
        (fun mp => mp.apply (u.forward x))).map Tensor.c).sum
        = ks.length * (inC / 2) := by
      rw [list_sum_const, List.length_map, List.length_map, List.length_map]
      intro a ha
      rw [List.mem_map] at ha
      obtain ⟨s, hs, rfl⟩ := ha
      rw [List.mem_map] at hs
      obtain ⟨mp, hmp, rfl⟩ := hs
      rw [List.mem_map] at hmp
      obtain ⟨k, -, rfl⟩ := hmp
      show (inC / 2 : Nat) = inC / 2
      rfl
    rw [hsum]
    ring
  · intro inC outC ks act qat p1 p2 sem sp x hinit hks hh hw
    obtain ⟨m, k0, k1, k2, -, hg0, hg1, hg2, rfl⟩ := SPPFbottleneck_init_ok hinit
    set u : BaseConv :=
      { conv := ⟨inC, inC / 2, 1, 1, 0, 1, false, p1.kd⟩,
        bn := ⟨inC / 2, p1.bnf⟩, act := sem m } with hu
    obtain ⟨hb1, hc1, hh1, hw1⟩ := forward_shape_1x1 u x rfl rfl rfl hh hw
    have hh1p : 0 < (u.forward x).h := by omega
    have hw1p : 0 < (u.forward x).w := by omega
    have hodd0 := hks k0 (List.getElem?_mem hg0)
    have hodd1 := hks k1 (List.getElem?_mem hg1)
    have hodd2 := hks k2 (List.getElem?_mem hg2)
    set x1 := u.forward x with hx1
    obtain ⟨p0b, p0c, p0h, p0w⟩ := maxPool_preserve k0 x1 hodd0 hh1p hw1p
    set s0 := (⟨k0, 1, k0 / 2⟩ : MaxPool2d).apply x1 with hs0
    obtain ⟨p1b, p1c, p1h, p1w⟩ := maxPool_preserve k1 s0 hodd1 (by omega) (by omega)
    set s1 := (⟨k1, 1, k1 / 2⟩ : MaxPool2d).apply s0 with hs1
    obtain ⟨p2b, p2c, p2h, p2w⟩ := maxPool_preserve k2 s1 hodd2 (by omega) (by omega)
    set s2 := (⟨k2, 1, k2 / 2⟩ : MaxPool2d).apply s1 with hs2
    have huni : ∀ s ∈ [s0, s1, s2], s.b = x1.b ∧ s.h = x1.h ∧ s.w = x1.w := by
      intro s hs
      simp only [List.mem_cons, List.not_mem_nil, or_false] at hs
      rcases hs with rfl | rfl | rfl
      · exact ⟨p0b, p0h, p0w⟩
      · exact ⟨p1b.trans p0b, p1h.trans p0h, p1w.trans p0w⟩
      · exact ⟨(p2b.trans p1b).trans p0b, (p2h.trans p1h).trans p0h,
               (p2w.trans p1w).trans p0w⟩
    rw [sppf_catStep_eq, catC_of_uniform x1 [s0, s1, s2] huni]
    refine ⟨_, rfl, ?_, hh1, hw1⟩
    show ((x1 :: [s0, s1, s2]).map Tensor.c).sum = inC / 2 * 4
    simp only [List.map_cons, List.map_nil, List.sum_cons, List.sum_nil]
    have hx1c : x1.c = inC / 2 := hc1
    have e0 : s0.c = inC / 2 := p0c.trans hx1c
    have e1 : s1.c = inC / 2 := p1c.trans e0
    have e2 : s2.c = inC / 2 := p2c.trans e1
    rw [hx1c, e0, e1, e2]
    omega

/-- Witness for C3: concrete SPP (K=3) and SPPF blocks on a 2-channel
4×4 input both feed a 4-channel tensor to conv2. -/
theorem spp_sppf_concat_width_witness :
    (sampleSpp.catStep (sampleSpp.conv1.forward t244)).map Tensor.c = some 4 ∧
    (sampleSppf.catStep (sampleSppf.conv1.forward t244)).map Tensor.c = some 4 := by
  constructor
  · obtain ⟨y, hy, hc, -, -, -⟩ := spp_sppf_concat_width.1 2 2 [5, 9, 13] "silu"
      false zeroParams zeroParams idSem sampleSpp t244 rfl (by decide) (by decide)
      (by decide)
    rw [hy]
    simp [hc]
  · obtain ⟨y, hy, hc, -, -⟩ := spp_sppf_concat_width.2 2 2 [5, 5, 5] "silu"
      false zeroParams zeroParams idSem sampleSppf t244 rfl (by decide) (by decide)
      (by decide)
    rw [hy]
    simp [hc]

/-! ### CSPLayer helpers -/

/-- Every Bottleneck built by `CSPLayer.mkBottlenecks` stores the `qat`
flag it was given. -/
theorem mkBottlenecks_qat {hidden : Nat} {shortcut depthwise : Bool}
    {act : String} {qat : Bool} {pm : Nat → ConvParams × ConvParams × ConvParams}
    {sem : ActModule → Int → Int} :
    ∀ {n : Nat} {ms : List Bottleneck},
      CSPLayer.mkBottlenecks hidden shortcut depthwise act qat pm sem n = .ok ms →
      ∀ bt ∈ ms, bt.qat = qat := by
  intro n
  induction n with
  | zero =>
    intro ms h bt hbt
    unfold CSPLayer.mkBottlenecks at h
    injection h with h
    subst h
    exact absurd hbt (List.not_mem_nil bt)
  | succ n ih =>
    intro ms h bt hbt
    unfold CSPLayer.mkBottlenecks at h
    obtain ⟨b1, hb1, h⟩ := exceptBind_ok h
    obtain ⟨rest, hrest, h⟩ := exceptBind_ok h
    cases h
    rcases List.mem_cons.mp hbt with rfl | hmem
    · exact (bottleneck_init_ok hb1).2
    · exact ih hrest bt hmem

/-- Inversion for a successful `CSPLayer.init`: the stored flag and the
Bottleneck stack. -/
theorem csp_init_ok {inC outC n : Nat} {shortcut : Bool} {expansion : ℚ}
    {depthwise : Bool} {act : String} {qat : Bool} {p1 p2 p3 : ConvParams}
    {pm : Nat → ConvParams × ConvParams × ConvParams}
    {sem : ActModule → Int → Int} {cl : CSPLayer}
    (h : CSPLayer.init inC outC n shortcut expansion depthwise act qat
          p1 p2 p3 pm sem = .ok cl) :
    cl.qat = qat ∧
    CSPLayer.mkBottlenecks ((⌊(outC : ℚ) * expansion⌋).toNat) shortcut depthwise
      act qat pm sem n = .ok cl.m := by
  unfold CSPLayer.init at h
  obtain ⟨c1, h1, h⟩ := exceptBind_ok h
  obtain ⟨c2, h2, h⟩ := exceptBind_ok h
  obtain ⟨c3, h3, h⟩ := exceptBind_ok h
  obtain ⟨ms, hms, h⟩ := exceptBind_ok h
  cases h
  exact ⟨rfl, hms⟩

/-- The single Bottleneck inside `sampleCsp`. -/
def sampleCspBt : Bottleneck :=
  { conv1 := { conv := ⟨1, 1, 1, 1, 0, 1, false, zeroKD⟩, bn := ⟨1, idBNF⟩,
               act := idSem (.silu true) },
    conv2 := .base { conv := ⟨1, 1, 3, 1, 1, 1, false, zeroKD⟩, bn := ⟨1, idBNF⟩,
                     act := idSem (.silu true) },
    use_add := true, qat := false, qat_func := ⟨⟩ }

/-- A concrete CSPLayer (in=out=2, n=1, expansion 1/2, qat=false),
written out as `CSPLayer.init` builds it. -/
def sampleCsp : CSPLayer :=
  { qat := false,
    conv1 := { conv := ⟨2, 1, 1, 1, 0, 1, false, zeroKD⟩, bn := ⟨1, idBNF⟩,
               act := idSem (.silu true) },
    conv2 := { conv := ⟨2, 1, 1, 1, 0, 1, false, zeroKD⟩, bn := ⟨1, idBNF⟩,
               act := idSem (.silu true) },
    conv3 := { conv := ⟨2, 2, 1, 1, 0, 1, false, zeroKD⟩, bn := ⟨2, idBNF⟩,
               act := idSem (.silu true) },
    m := [sampleCspBt], qat_func := ⟨⟩ }

/-- C9: a constructed CSPLayer forwards its `qat` flag into every inner
Bottleneck, yet its own top-level path-A/path-B combine goes through the
quantization-aware functional (`qat_func.cat`) unconditionally: the
layer's forward result never depends on its own `qat` flag and never
takes a plain-concat branch. -/
theorem csplayer_qat_routing (inC outC n : Nat) (shortcut : Bool)
    (expansion : ℚ) (depthwise : Bool) (act : String) (qat : Bool)
    (p1 p2 p3 : ConvParams) (pm : Nat → ConvParams × ConvParams × ConvParams)
    (sem : ActModule → Int → Int) (cl : CSPLayer)
    (h : CSPLayer.init inC outC n shortcut expansion depthwise act qat
          p1 p2 p3 pm sem = .ok cl) :
    (∀ bt ∈ cl.m, bt.qat = qat) ∧
    (∀ (x : Tensor) (q : Bool),
        CSPLayer.forward { cl with qat := q } x = CSPLayer.forward cl x) ∧
    (∀ x : Tensor, CSPLayer.forward cl x =
        (CSPLayer.mForward cl.m (cl.conv1.forward x)).bind
          (fun x1 => (cl.qat_func.cat [x1, cl.conv2.forward x]).map
            cl.conv3.forward)) := by
  obtain ⟨-, hms⟩ := csp_init_ok h
  refine ⟨mkBottlenecks_qat hms, fun x q => rfl, fun x => ?_⟩
  unfold CSPLayer.forward
  cases CSPLayer.mForward cl.m (cl.conv1.forward x) with
  | none => rfl
  | some x1 =>
    show (cl.qat_func.cat [x1, cl.conv2.forward x]).bind
          (fun xc => pure (cl.conv3.forward xc))
        = Option.map cl.conv3.forward (cl.qat_func.cat [x1, cl.conv2.forward x])
    cases cl.qat_func.cat [x1, cl.conv2.forward x] with
    | none => rfl
    | some xc => rfl

/-- Witness for C9: a concrete CSPLayer built with `qat = false` has a
`qat = false` inner Bottleneck, and flipping the layer's own flag does
not change its forward result. -/
theorem csplayer_qat_routing_witness :
    CSPLayer.forward { sampleCsp with qat := true } t244
      = CSPLayer.forward sampleCsp t244 ∧
    sampleCspBt.qat = false := by
  have hfl1 : ((⌊((2 : Nat) : ℚ) * ((1 : ℚ) / 2)⌋).toNat) = 1 := by norm_num
  have hfl2 : ((⌊((1 : Nat) : ℚ) * (1 : ℚ)⌋).toNat) = 1 := by norm_num
  have hinit : CSPLayer.init 2 2 1 true ((1 : ℚ) / 2) false "silu" false
      zeroParams zeroParams zeroParams
      (fun _ => (zeroParams, zeroParams, zeroParams)) idSem = .ok sampleCsp := by
    simp [CSPLayer.init, CSPLayer.mkBottlenecks, Bottleneck.init, BaseConv.init,
      Conv2d.init, get_activation, hfl1, hfl2, zeroParams, sampleCsp, sampleCspBt,
      Bind.bind, Except.bind, Except.map]
  have h := csplayer_qat_routing 2 2 1 true ((1 : ℚ) / 2) false "silu" false
    zeroParams zeroParams zeroParams
    (fun _ => (zeroParams, zeroParams, zeroParams)) idSem sampleCsp hinit
  exact ⟨h.2.1 t244 true, h.1 sampleCspBt (by simp [sampleCsp])⟩

end DDTrainer
